import Mathlib

/-!
# Verification of the pinku-batched duotone filter core

Shallow embedding of the pixel transform engine and the concurrent batch
pipeline of `src/pinku-batched.tsx` (and its variant `src/unnamed/part_000`,
whose core logic is identical).

Numeric modelling notes.  The source computes the LUT entries and the
luminance index in IEEE-754 double precision and rounds them via
`Uint8ClampedArray` stores (round to nearest, ties to even, clamped to
`[0,255]`) and `Math.round` (round half up) respectively.  We embed the
arithmetic exactly over the rationals, scaled to natural numbers:

* LUT entry `i` is the exact value `(A*(255-i) + B*i) / 255` rounded with the
  ties-to-even rule of `Uint8ClampedArray`.  For the fixed anchors the exact
  value is never a half-integer (255 is odd, so `n/255` is never of the form
  `k + 1/2`), and the double-precision evaluation of
  `COLOR_A[c]*invLuminance + COLOR_B[c]*luminance` differs from the exact
  value by less than `2^-40`, while the exact value stays at least `1/510`
  away from every rounding boundary; hence rounding the exact value is a
  faithful model of the float computation.
* the luminance is the exact value `(2126*r + 7152*g + 722*b) / 10000`
  rounded half up, modelling `Math.round(r*0.2126 + g*0.7152 + b*0.0722)`.
-/

namespace Pinku

/-- JavaScript `Math.round` on the non-negative rational `num / den`
(round half up): `⌊num/den + 1/2⌋ = (2*num + den) / (2*den)` in `ℕ`. -/
def jsRound (num den : ℕ) : ℕ := (2 * num + den) / (2 * den)

/-- The rounding step of the ECMAScript `ToUint8Clamp` conversion performed by
a `Uint8ClampedArray` store, on the non-negative rational `num / den`:
round to nearest, ties to even. -/
def roundTiesEven (num den : ℕ) : ℕ :=
  if 2 * (num % den) < den then num / den
  else if den < 2 * (num % den) then num / den + 1
  else if (num / den) % 2 = 0 then num / den else num / den + 1

/-- The clamping step of `ToUint8Clamp`: values above 255 saturate to 255
(negative values cannot arise in the `ℕ` model). -/
def clampU8 (n : ℕ) : ℕ := min n 255

/-- `COLOR_A = [22, 80, 39]`, the shadow anchor color of the source. -/
def COLOR_A : List ℕ := [22, 80, 39]

/-- `COLOR_B = [249, 159, 210]`, the highlight anchor color of the source. -/
def COLOR_B : List ℕ := [249, 159, 210]

/-- One entry of a lookup table built by the source's construction loop:
`lut[i] = a * invLuminance + b * luminance` with `luminance = i/255`,
stored into a `Uint8ClampedArray`.  Scaling by 255:
`(a*(255-i) + b*i) / 255`, rounded ties-to-even and clamped. -/
def lutEntry (a b i : ℕ) : ℕ := clampU8 (roundTiesEven (a * (255 - i) + b * i) 255)

/-- `rLUT[i] = (COLOR_A[0] * invLuminance) + (COLOR_B[0] * luminance)`. -/
def rLUT (i : ℕ) : ℕ := lutEntry 22 249 i

/-- `gLUT[i] = (COLOR_A[1] * invLuminance) + (COLOR_B[1] * luminance)`. -/
def gLUT (i : ℕ) : ℕ := lutEntry 80 159 i

/-- `bLUT[i] = (COLOR_A[2] * invLuminance) + (COLOR_B[2] * luminance)`. -/
def bLUT (i : ℕ) : ℕ := lutEntry 39 210 i

/-- The LUT formula as the spec words it:
`lut[channel][luminance] = round(A[channel]*(1-luminance/255) + B[channel]*(luminance/255))`,
clamped to 8 bits, scaled by 255 and using round half up as the one
consistent rounding rule.  Written from the spec, to be compared with the
source-derived `lutEntry`. -/
def specLUT (a b i : ℕ) : ℕ := clampU8 (jsRound (a * (255 - i) + b * i) 255)

/-- `Math.round((r * 0.2126) + (g * 0.7152) + (b * 0.0722))` of the source's
`filtering` loop, on the exact rational scaled by 10000. -/
def luminanceInt (r g b : ℕ) : ℕ := jsRound (2126 * r + 7152 * g + 722 * b) 10000

/-- The per-pixel body of the source's `filtering` loop: compute the
luminance index, overwrite the three color channels with the LUT values and
keep the alpha byte. -/
def transformPixel (r g b a : ℕ) : ℕ × ℕ × ℕ × ℕ :=
  let L := luminanceInt r g b
  (rLUT L, gLUT L, bLUT L, a)

/-- The source's `filtering` function on the flat RGBA byte list
(`for (i = 0; i < data.length; i += 4)`); a tail of fewer than four bytes is
outside the claims' preconditions (decoders always produce 4-aligned
buffers) and is left unchanged. -/
def filtering : List ℕ → List ℕ
  | r :: g :: b :: a :: rest =>
      rLUT (luminanceInt r g b) :: gLUT (luminanceInt r g b) ::
        bLUT (luminanceInt r g b) :: a :: filtering rest
  | l => l

/-!
## Batch pipeline

`handleConvert` spawns one async task per file.  A task awaits the image
load (`image.onerror = reject`: a decode failure **rejects** the task's
promise — the task body has a `try`/`finally` but no `catch`), draws the
image on a fresh canvas, reads the pixel buffer, applies `filtering`, and
returns `{url, name: "pinku_" + file.name, originalName: file.name}`; if
`canvas.getContext("2d")` returns `null` the task returns `null` instead.
Each successful task increments `processedCount` and publishes
`Math.round(processedCount / files.length * 100)`.

`Promise.all` then joins the tasks: it preserves submission order in its
result array, and rejects as soon as any task rejects, in which case the
orchestration-level `catch` only logs and `setProcessedImages` is never
called with the results — the published image list stays the empty list set
at the start of the invocation (sibling tasks still run to completion and
still publish their progress updates).  We model the quiescent state after
every task has settled.
-/

/-- A source image as the pipeline sees it: a display name, the decode
outcome (`none` models `image.onerror` firing, i.e. bytes that are not a
decodable raster image; `some buf` the flat RGBA buffer obtained from
`getImageData`), and whether `canvas.getContext("2d")` yields a context. -/
structure SourceImage where
  name : String
  decoded : Option (List ℕ)
  ctxOk : Bool
deriving DecidableEq

/-- The `{url, name, originalName}` record produced per successful item; the
PNG encoding of `canvas.toDataURL` is modelled by the filtered buffer
itself. -/
structure ProcessedImage where
  url : List ℕ
  name : String
  originalName : String
deriving DecidableEq

/-- One per-file task of `handleConvert`: decode failure rejects the task's
promise (`Except.error`), a missing 2d context yields `null`
(`Except.ok none`), otherwise the filtered, renamed image is returned. -/
def processItem (f : SourceImage) : Except Unit (Option ProcessedImage) :=
  match f.decoded with
  | none => Except.error ()
  | some buf =>
      if f.ctxOk then
        Except.ok (some { url := filtering buf
                          name := "pinku_" ++ f.name
                          originalName := f.name })
      else Except.ok none

/-- Whether a task runs its success path (decode succeeded and a 2d context
was available), i.e. increments `processedCount`. -/
def itemSucceeds (f : SourceImage) : Bool := f.decoded.isSome && f.ctxOk

/-- The result a task delivers to the `Promise.all` join (`null` both for a
missing context and — after the join rejects — for a failed task). -/
def okOpt : Except Unit (Option ProcessedImage) → Option ProcessedImage
  | Except.ok o => o
  | Except.error _ => none

/-- Whether a task's promise rejected. -/
def isErr : Except Unit (Option ProcessedImage) → Bool
  | Except.error _ => true
  | Except.ok _ => false

/-- The React state touched by `handleConvert`. -/
structure BatchState where
  isProcessing : Bool
  processingProgress : ℕ
  processedImages : List ProcessedImage
deriving DecidableEq

/-- The quiescent state after one `handleConvert` invocation on `files`,
starting from state `s`.  An empty file list returns early without touching
any state.  Otherwise every task settles; `processedCount` ends at the
number of successful tasks and the last published progress is
`Math.round(processedCount / files.length * 100)`.  If any task rejected,
`Promise.all` rejected, the `catch` only logged, and `processedImages`
keeps the empty list set at the start; otherwise it becomes the join's
result array with the `null` entries filtered out. -/
def handleConvert (files : List SourceImage) (s : BatchState) : BatchState :=
  if files.length = 0 then s
  else if (files.map processItem).any isErr then
    { isProcessing := false
      processingProgress :=
        jsRound ((files.map processItem).countP (fun r => (okOpt r).isSome) * 100)
          files.length
      processedImages := [] }
  else
    { isProcessing := false
      processingProgress :=
        jsRound ((files.map processItem).countP (fun r => (okOpt r).isSome) * 100)
          files.length
      processedImages := (files.map processItem).filterMap okOpt }

/-- The running values of `processedCount` published as progress while the
tasks of one batch settle in the order `comp`: only a task that reaches its
success path increments the counter and publishes
`Math.round(count / total * 100)`. -/
def progressEventsAux (total : ℕ) (count : ℕ) : List SourceImage → List ℕ
  | [] => []
  | f :: rest =>
      if itemSucceeds f then
        jsRound ((count + 1) * 100) total :: progressEventsAux total (count + 1) rest
      else progressEventsAux total count rest

/-- The progress percentages published during one invocation on `files`
whose tasks settle in the order `comp` (a permutation of `files`); an empty
file list returns before spawning anything, so nothing is published. -/
def progressEvents (files comp : List SourceImage) : List ℕ :=
  if files.length = 0 then [] else progressEventsAux files.length 0 comp

/-- The value of `processedCount` after the first `k` of the settling
order `comp` have settled. -/
def completedCount (comp : List SourceImage) (k : ℕ) : ℕ :=
  (comp.take k).countP (fun f => itemSucceeds f)

/-- A placeholder image used only to give `List.getD` a default. -/
def defaultImage : SourceImage := { name := "", decoded := none, ctxOk := false }

/-- The submission-indexed task outcomes that `Promise.all` joins: slot `i`
of its result array holds the value of the task spawned for `files[i]`. -/
def submissionResults (files : List SourceImage) : List (ℕ × Option ProcessedImage) :=
  (List.range files.length).map
    (fun i => (i, okOpt (processItem (files.getD i defaultImage))))

/-- The order-preserving join: given the task outcomes tagged with their
submission indices, in whatever order they completed, rebuild the result
array by submission index (the semantics of `Promise.all`). -/
def assemble (n : ℕ) (completions : List (ℕ × Option ProcessedImage)) :
    List (Option ProcessedImage) :=
  (List.range n).map (fun i =>
    match completions.find? (fun p => p.1 == i) with
    | some p => p.2
    | none => none)

/-- Sample images used by concrete witnesses. -/
def imgGood : SourceImage :=
  { name := "good", decoded := some [0, 0, 0, 255], ctxOk := true }

/-- A source image whose bytes fail to decode (`image.onerror` fires). -/
def imgBad : SourceImage := { name := "bad", decoded := none, ctxOk := true }

/-- A second decodable sample image. -/
def imgGood2 : SourceImage :=
  { name := "good2", decoded := some [255, 255, 255, 128], ctxOk := true }

/-- A fresh batch state. -/
def state0 : BatchState :=
  { isProcessing := false, processingProgress := 0, processedImages := [] }

/-!
## Numeric helper lemmas
-/

/-- Under the BT.709 weights, 8-bit channels give a luminance index of at
most 255: the weights sum to exactly 10000/10000. -/
lemma luminanceInt_le (r g b : ℕ) (hr : r ≤ 255) (hg : g ≤ 255) (hb : b ≤ 255) :
    luminanceInt r g b ≤ 255 := by
  unfold luminanceInt jsRound
  have h : 2 * (2126 * r + 7152 * g + 722 * b) + 10000 ≤ 5110000 := by omega
  calc (2 * (2126 * r + 7152 * g + 722 * b) + 10000) / (2 * 10000)
      ≤ 5110000 / (2 * 10000) := Nat.div_le_div_right h
    _ = 255 := by norm_num

/-- With the odd denominator 255 the exact value `n/255` is never a
half-integer, so the ties-to-even rounding of a `Uint8ClampedArray` store
coincides with rounding half up. -/
lemma roundTiesEven_255 (n : ℕ) : roundTiesEven n 255 = (2 * n + 255) / 510 := by
  unfold roundTiesEven
  have hmod : n % 255 < 255 := Nat.mod_lt _ (by norm_num)
  have hsplit : 2 * n + 255 = (2 * (n % 255) + 255) + (n / 255) * 510 := by
    have := Nat.div_add_mod n 255
    omega
  rw [hsplit, Nat.add_mul_div_right _ _ (by norm_num : (0:ℕ) < 510)]
  rcases Nat.lt_trichotomy (2 * (n % 255)) 255 with h | h | h
  · rw [if_pos h,
      Nat.div_eq_of_lt (show 2 * (n % 255) + 255 < 510 by omega)]
    omega
  · omega
  · rw [if_neg (by omega), if_pos (by omega),
      show 2 * (n % 255) + 255 = 510 + (2 * (n % 255) - 255) by omega,
      Nat.add_div_left _ (by norm_num : (0:ℕ) < 510),
      Nat.div_eq_of_lt (show 2 * (n % 255) - 255 < 510 by omega)]
    omega

/-- The interpolated numerator `a*(255-i) + b*i` is monotone in `i` on
`[0,255]` when `a ≤ b`. -/
lemma interpNum_mono {a b i j : ℕ} (hab : a ≤ b) (hij : i ≤ j) (hj : j ≤ 255) :
    a * (255 - i) + b * i ≤ a * (255 - j) + b * j := by
  have h1 : 255 - i = (255 - j) + (j - i) := by omega
  have h2 : b * j = b * i + b * (j - i) := by
    rw [← Nat.mul_add]
    congr 1
    omega
  have h3 : a * (j - i) ≤ b * (j - i) := Nat.mul_le_mul_right _ hab
  calc a * (255 - i) + b * i
      = a * (255 - j) + a * (j - i) + b * i := by rw [h1, Nat.mul_add]
    _ ≤ a * (255 - j) + b * (j - i) + b * i := by
        exact Nat.add_le_add_right (Nat.add_le_add_left h3 _) _
    _ = a * (255 - j) + b * j := by rw [h2]; ring

/-- Each LUT channel is monotone between anchors with `a ≤ b`. -/
lemma lutEntry_mono {a b : ℕ} (hab : a ≤ b) {i j : ℕ} (hij : i ≤ j)
    (hj : j ≤ 255) : lutEntry a b i ≤ lutEntry a b j := by
  unfold lutEntry clampU8
  refine min_le_min ?_ (le_refl 255)
  rw [roundTiesEven_255, roundTiesEven_255]
  exact Nat.div_le_div_right (by have := interpNum_mono hab hij hj; omega)

/-- `Math.round(n/n * 100) = 100` for a positive total. -/
lemma jsRound_100 {n : ℕ} (hn : 0 < n) : jsRound (n * 100) n = 100 := by
  unfold jsRound
  rw [show 2 * (n * 100) + n = 2 * n * 100 + n by ring,
    Nat.mul_add_div (by omega), Nat.div_eq_of_lt (by omega)]

/-!
## Per-pixel transform lemmas
-/

/-- `filtering` preserves buffer length. -/
lemma filtering_length : ∀ data : List ℕ, (filtering data).length = data.length
  | [] => rfl
  | [_] => rfl
  | [_, _] => rfl
  | [_, _, _] => rfl
  | r :: g :: b :: a :: rest => by
      simp [filtering, filtering_length rest]

/-- `filtering` never touches a byte at an alpha offset `4*k + 3`. -/
lemma filtering_get_alpha : ∀ (data : List ℕ) (k : ℕ),
    (filtering data).get? (4 * k + 3) = data.get? (4 * k + 3)
  | [], _ => rfl
  | [_], _ => rfl
  | [_, _], _ => rfl
  | [_, _, _], _ => rfl
  | r :: g :: b :: a :: rest, k => by
      cases k with
      | zero => rfl
      | succ k =>
          have h4 : 4 * (k + 1) + 3 = ((((4 * k + 3) + 1) + 1) + 1) + 1 := by
            omega
          rw [show filtering (r :: g :: b :: a :: rest) =
              rLUT (luminanceInt r g b) :: gLUT (luminanceInt r g b) ::
                bLUT (luminanceInt r g b) :: a :: filtering rest from rfl,
            h4]
          simp only [List.get?_cons_succ]
          exact filtering_get_alpha rest k

/-!
## Batch pipeline lemmas
-/

/-- A task that runs its success path returns the filtered, renamed image. -/
lemma processItem_succeeds {f : SourceImage} (h : itemSucceeds f = true) :
    processItem f =
      Except.ok (some { url := filtering (f.decoded.getD [])
                        name := "pinku_" ++ f.name
                        originalName := f.name }) := by
  rcases f with ⟨name, decoded, ctxOk⟩
  simp only [itemSucceeds, Bool.and_eq_true] at h
  cases decoded with
  | none => simp at h
  | some buf => simp [processItem, h.2]

/-- When every task succeeds, the join's filtered result array is the
submission-ordered list of filtered, renamed images. -/
lemma filterMap_all_ok {files : List SourceImage}
    (hall : ∀ f ∈ files, itemSucceeds f = true) :
    (files.map processItem).filterMap okOpt =
      files.map (fun f =>
        ({ url := filtering (f.decoded.getD [])
           name := "pinku_" ++ f.name
           originalName := f.name } : ProcessedImage)) := by
  induction files with
  | nil => rfl
  | cons f rest ih =>
      have hf := hall f (by simp)
      have hrest : ∀ x ∈ rest, itemSucceeds x = true := fun x hx =>
        hall x (by simp [hx])
      simp [processItem_succeeds hf, okOpt, ih hrest]

/-- A task for decodable bytes never rejects (a missing context returns
`null`, not a rejection). -/
lemma no_error_of_decodable {files : List SourceImage}
    (hdec : ∀ f ∈ files, f.decoded.isSome = true) :
    (files.map processItem).any isErr = false := by
  induction files with
  | nil => rfl
  | cons f rest ih =>
      have hf := hdec f (by simp)
      have hrest : ∀ x ∈ rest, x.decoded.isSome = true := fun x hx =>
        hdec x (by simp [hx])
      rcases f with ⟨name, decoded, ctxOk⟩
      cases decoded with
      | none => simp at hf
      | some buf =>
          cases ctxOk with
          | false => simp [processItem, isErr, ih hrest]
          | true => simp [processItem, isErr, ih hrest]

/-- A succeeding task decodes. -/
lemma decodable_of_succeeds {f : SourceImage} (h : itemSucceeds f = true) :
    f.decoded.isSome = true := by
  simp only [itemSucceeds, Bool.and_eq_true] at h
  exact h.1

/-- When every task succeeds, `processedCount` ends at the batch size. -/
lemma countP_all_ok {files : List SourceImage}
    (hall : ∀ f ∈ files, itemSucceeds f = true) :
    (files.map processItem).countP (fun r => (okOpt r).isSome) =
      files.length := by
  induction files with
  | nil => rfl
  | cons f rest ih =>
      have hf := hall f (by simp)
      have hrest : ∀ x ∈ rest, itemSucceeds x = true := fun x hx =>
        hall x (by simp [hx])
      rw [List.map_cons, List.countP_cons, processItem_succeeds hf, ih hrest]
      simp [okOpt]

/-- `getLast?` skips the head when the tail is non-empty. -/
lemma getLast_cons_ne {α : Type} (a : α) (l : List α) (h : l ≠ []) :
    (a :: l).getLast? = l.getLast? := by
  cases l with
  | nil => cases h rfl
  | cons b t => rfl

/-- An all-success settling order publishes at least one progress event. -/
lemma progressEventsAux_ne_nil :
    ∀ (comp : List SourceImage) (total count : ℕ),
      (∀ f ∈ comp, itemSucceeds f = true) → comp ≠ [] →
      progressEventsAux total count comp ≠ []
  | [], _, _, _, hne => absurd rfl hne
  | f :: rest, total, count, hall, _ => by
      have hf : itemSucceeds f = true := hall f (by simp)
      simp [progressEventsAux, hf]

/-- In an all-success batch the last published progress value is
`Math.round((count + size)/total * 100)`. -/
lemma progressEventsAux_getLast :
    ∀ (comp : List SourceImage) (total count : ℕ),
      (∀ f ∈ comp, itemSucceeds f = true) → comp ≠ [] →
      (progressEventsAux total count comp).getLast? =
        some (jsRound ((count + comp.length) * 100) total)
  | [], _, _, _, hne => absurd rfl hne
  | [f], total, count, hall, _ => by
      have hf : itemSucceeds f = true := hall f (by simp)
      simp [progressEventsAux, hf]
  | f :: g :: rest, total, count, hall, _ => by
      have hf : itemSucceeds f = true := hall f (by simp)
      have hrest : ∀ x ∈ g :: rest, itemSucceeds x = true := fun x hx =>
        hall x (by simp at hx ⊢; tauto)
      have hne2 : (g :: rest : List SourceImage) ≠ [] := by simp
      have hne3 := progressEventsAux_ne_nil (g :: rest) total (count + 1)
        hrest hne2
      have ih := progressEventsAux_getLast (g :: rest) total (count + 1)
        hrest hne2
      rw [show progressEventsAux total count (f :: g :: rest) =
          jsRound ((count + 1) * 100) total ::
            progressEventsAux total (count + 1) (g :: rest) from by
          simp [progressEventsAux, hf],
        getLast_cons_ne _ _ hne3, ih]
      congr 2
      simp [List.length_cons]
      omega

/-- The slot a completed task occupies in the `Promise.all` result array is
determined by its submission index, whatever the completion order. -/
lemma find_in_perm (files : List SourceImage)
    (completions : List (ℕ × Option ProcessedImage))
    (hperm : completions.Perm (submissionResults files))
    (i : ℕ) (hi : i < files.length) :
    completions.find? (fun q => q.1 == i) =
      some (i, okOpt (processItem (files.getD i defaultImage))) := by
  have hmem : (i, okOpt (processItem (files.getD i defaultImage))) ∈
      submissionResults files := by
    unfold submissionResults
    exact List.mem_map.mpr ⟨i, List.mem_range.mpr hi, rfl⟩
  have hmemc : (i, okOpt (processItem (files.getD i defaultImage))) ∈
      completions := (hperm.mem_iff).mpr hmem
  have hsome : (completions.find? (fun q => q.1 == i)).isSome := by
    rw [List.find?_isSome]
    exact ⟨_, hmemc, by simp⟩
  obtain ⟨q, hq⟩ := Option.isSome_iff_exists.mp hsome
  have hqmem : q ∈ completions := List.mem_of_find?_eq_some hq
  have hqpred := List.find?_some hq
  have hqi : q.1 = i := by simpa using hqpred
  have hqsub : q ∈ submissionResults files := hperm.mem_iff.mp hqmem
  unfold submissionResults at hqsub
  obtain ⟨j, hj, hqj⟩ := List.mem_map.mp hqsub
  rw [hq]
  rcases q with ⟨q1, q2⟩
  injection hqj with hj1 hj2
  subst hj2
  subst hj1
  have hji : j = i := hqi
  subst hji
  rfl

/-- The `Promise.all` join reassembles the submission-ordered result array
from any completion order. -/
lemma assemble_eq (files : List SourceImage)
    (completions : List (ℕ × Option ProcessedImage))
    (hperm : completions.Perm (submissionResults files)) :
    assemble files.length completions =
      files.map (fun f => okOpt (processItem f)) := by
  unfold assemble
  apply List.ext_get
  · simp
  · intro k h1 h2
    simp only [List.get_eq_getElem, List.getElem_map, List.getElem_range]
    have hk : k < files.length := by simpa using h2
    rw [find_in_perm files completions hperm k hk,
      List.getD_eq_getElem files defaultImage hk]

/-!
## Claim theorems
-/

set_option maxRecDepth 8000 in
/-- C4: For every index `i` in `[0,255]`, each channel of the constructed
lookup table satisfies
`lut[c][i] = clamp_u8(round(A[c]*(1 - i/255) + B[c]*(i/255)))` with round
half up as the consistent rounding rule (the source's ties-to-even store
agrees: the exact value is never a half-integer); consequently `lut[c][0]`
is anchor A's channel, `lut[c][255]` is anchor B's channel, and each
channel's table is non-decreasing (here `A[c] ≤ B[c]` for all three
channels). -/
theorem C4_lut_interpolation :
    (∀ i, i ≤ 255 →
      rLUT i = specLUT 22 249 i ∧ gLUT i = specLUT 80 159 i ∧
        bLUT i = specLUT 39 210 i) ∧
    (rLUT 0 = 22 ∧ gLUT 0 = 80 ∧ bLUT 0 = 39) ∧
    (rLUT 255 = 249 ∧ gLUT 255 = 159 ∧ bLUT 255 = 210) ∧
    (∀ i j, i ≤ j → j ≤ 255 →
      rLUT i ≤ rLUT j ∧ gLUT i ≤ gLUT j ∧ bLUT i ≤ bLUT j) := by
  refine ⟨by decide, by decide, by decide, ?_⟩
  intro i j hij hj
  exact ⟨lutEntry_mono (by norm_num) hij hj,
    lutEntry_mono (by norm_num) hij hj,
    lutEntry_mono (by norm_num) hij hj⟩

/-- C5: On every RGBA buffer whose length is a multiple of 4 the transform
preserves length and leaves every alpha byte (offset `4*k + 3`) exactly
equal to its input value. -/
theorem C5_alpha_preserved (data : List ℕ) (h : data.length % 4 = 0)
    (k : ℕ) :
    (filtering data).length = data.length ∧
    (filtering data).get? (4 * k + 3) = data.get? (4 * k + 3) :=
  ⟨filtering_length data, filtering_get_alpha data k⟩

/-- Witness for C5 on a concrete two-pixel buffer at the second pixel. -/
theorem C5_alpha_preserved_witness :
    ([10, 20, 30, 40, 50, 60, 70, 80] : List ℕ).length % 4 = 0 ∧
    ((filtering [10, 20, 30, 40, 50, 60, 70, 80]).length =
        ([10, 20, 30, 40, 50, 60, 70, 80] : List ℕ).length ∧
      (filtering [10, 20, 30, 40, 50, 60, 70, 80]).get? (4 * 1 + 3) =
        ([10, 20, 30, 40, 50, 60, 70, 80] : List ℕ).get? (4 * 1 + 3)) :=
  ⟨by decide,
    C5_alpha_preserved [10, 20, 30, 40, 50, 60, 70, 80] (by decide) 1⟩

/-- C6: Two pixels with identical computed luminance produce identical
output RGB, whatever their channel values. -/
theorem C6_luminance_determines_rgb (r1 g1 b1 a1 r2 g2 b2 a2 : ℕ)
    (h : luminanceInt r1 g1 b1 = luminanceInt r2 g2 b2) :
    (transformPixel r1 g1 b1 a1).1 = (transformPixel r2 g2 b2 a2).1 ∧
    (transformPixel r1 g1 b1 a1).2.1 = (transformPixel r2 g2 b2 a2).2.1 ∧
    (transformPixel r1 g1 b1 a1).2.2.1 =
      (transformPixel r2 g2 b2 a2).2.2.1 := by
  refine ⟨?_, ?_, ?_⟩ <;> simp [transformPixel, h]

/-- Witness for C6: `(10,0,0)` and `(0,3,0)` differ in RGB yet share
luminance index 2, and get the same red output. -/
theorem C6_luminance_determines_rgb_witness :
    luminanceInt 10 0 0 = luminanceInt 0 3 0 ∧
    ((10 : ℕ), (0 : ℕ), (0 : ℕ)) ≠ ((0 : ℕ), (3 : ℕ), (0 : ℕ)) ∧
    (transformPixel 10 0 0 255).1 = (transformPixel 0 3 0 128).1 :=
  ⟨by decide, by decide,
    (C6_luminance_determines_rgb 10 0 0 255 0 3 0 128 (by decide)).1⟩

/-- C1: the claim that `run([good, bad, good2])` (only `bad` failing to
decode) resolves with exactly the 2 entries for `good` and `good2` is
violated by the code: the per-item task has no local `catch`, so the `bad`
item's rejection makes `Promise.all` reject; the orchestration `catch` only
logs and never publishes the sibling results.  The run still resolves
(`isProcessing` ends `false`), but the published result list is empty, not
of length 2. -/
theorem C1_decode_failure_discards_all :
    (handleConvert [imgGood, imgBad, imgGood2] state0).isProcessing = false ∧
    (handleConvert [imgGood, imgBad, imgGood2] state0).processedImages = [] ∧
    ¬ (handleConvert [imgGood, imgBad, imgGood2]
        state0).processedImages.length = 2 := by
  decide

/-- C2: A non-empty all-decodable batch of N images yields exactly N
`ProcessedImage` entries, the final published progress is exactly 100 (both
in the final state and as the last progress event of any settling order
`comp`), and every entry's output name is the literal prefix `pinku_`
concatenated with its unmodified source name. -/
theorem C2_all_success_run (files comp : List SourceImage) (s : BatchState)
    (hne : files ≠ [])
    (hall : ∀ f ∈ files, itemSucceeds f = true)
    (hperm : comp.Perm files) :
    (handleConvert files s).processedImages.length = files.length ∧
    (handleConvert files s).processingProgress = 100 ∧
    (progressEvents files comp).getLast? = some 100 ∧
    ∀ k, (hk : k < (handleConvert files s).processedImages.length) →
      (hk2 : k < files.length) →
      ((handleConvert files s).processedImages[k].name =
          "pinku_" ++ files[k].name ∧
        (handleConvert files s).processedImages[k].originalName =
          files[k].name) := by
  have hlen0 : files.length ≠ 0 := fun h0 => hne (List.length_eq_zero.mp h0)
  have herr : (files.map processItem).any isErr = false :=
    no_error_of_decodable (fun f hf => decodable_of_succeeds (hall f hf))
  have hstate : handleConvert files s =
      { isProcessing := false
        processingProgress :=
          jsRound ((files.map processItem).countP
            (fun r => (okOpt r).isSome) * 100) files.length
        processedImages := (files.map processItem).filterMap okOpt } := by
    unfold handleConvert
    rw [if_neg hlen0, if_neg (by simp [herr])]
  have hres : (handleConvert files s).processedImages =
      files.map (fun f =>
        ({ url := filtering (f.decoded.getD [])
           name := "pinku_" ++ f.name
           originalName := f.name } : ProcessedImage)) := by
    rw [hstate]
    exact filterMap_all_ok hall
  have hprog : (handleConvert files s).processingProgress = 100 := by
    rw [hstate]
    show jsRound _ files.length = 100
    rw [countP_all_ok hall]
    exact jsRound_100 (Nat.pos_of_ne_zero hlen0)
  refine ⟨?_, hprog, ?_, ?_⟩
  · rw [hres]
    exact List.length_map _ _
  · have hallc : ∀ f ∈ comp, itemSucceeds f = true := fun f hf =>
      hall f (hperm.subset hf)
    have hnec : comp ≠ [] := by
      intro h0
      exact hlen0 (by rw [← hperm.length_eq, h0]; rfl)
    rw [show progressEvents files comp =
        progressEventsAux files.length 0 comp from by
        unfold progressEvents
        rw [if_neg hlen0],
      progressEventsAux_getLast comp files.length 0 hallc hnec,
      hperm.length_eq]
    simp [jsRound_100 (Nat.pos_of_ne_zero hlen0)]
  · intro k hk hk2
    simp [hres, List.getElem_map]

/-- Witness for C2 on the one-image batch `[imgGood]` settling in
submission order. -/
theorem C2_all_success_run_witness :
    ([imgGood] : List SourceImage) ≠ [] ∧
    (handleConvert [imgGood] state0).processedImages.length = 1 ∧
    (handleConvert [imgGood] state0).processingProgress = 100 ∧
    (progressEvents [imgGood] [imgGood]).getLast? = some 100 :=
  ⟨by decide,
    (C2_all_success_run [imgGood] [imgGood] state0 (by decide) (by decide)
      (List.Perm.refl _)).1,
    (C2_all_success_run [imgGood] [imgGood] state0 (by decide) (by decide)
      (List.Perm.refl _)).2.1,
    (C2_all_success_run [imgGood] [imgGood] state0 (by decide) (by decide)
      (List.Perm.refl _)).2.2.1⟩

/-- C7: Invoking the batch run with an empty image list is a no-op: the
early return leaves the whole state untouched (in particular the result
list), and no progress events are emitted for any settling order. -/
theorem C7_empty_input_noop (s : BatchState) (comp : List SourceImage) :
    handleConvert [] s = s ∧
    (handleConvert [] s).processedImages = s.processedImages ∧
    progressEvents [] comp = [] :=
  ⟨rfl, rfl, rfl⟩

/-- C8: Within a single batch whose tasks settle in order `comp` (any
permutation of the submitted `files`), `processedCount` starts at zero, is
monotonically non-decreasing, increments by exactly one at each successful
item completion, and never exceeds the batch's total item count. -/
theorem C8_completed_count_invariant (files comp : List SourceImage)
    (hperm : comp.Perm files) :
    completedCount comp 0 = 0 ∧
    (∀ k, completedCount comp k ≤ completedCount comp (k + 1)) ∧
    (∀ k, (hk : k < comp.length) → itemSucceeds comp[k] = true →
      completedCount comp (k + 1) = completedCount comp k + 1) ∧
    (∀ k, completedCount comp k ≤ files.length) := by
  refine ⟨rfl, ?_, ?_, ?_⟩
  · intro k
    simp only [completedCount, List.take_succ, List.countP_append]
    exact Nat.le_add_right _ _
  · intro k hk hs
    simp only [completedCount, List.take_succ, List.countP_append]
    rw [List.getElem?_eq_getElem hk]
    simp [hs, List.countP_cons]
  · intro k
    calc completedCount comp k ≤ (comp.take k).length :=
        List.countP_le_length _
      _ ≤ comp.length := by
        rw [List.length_take]
        exact Nat.min_le_right _ _
      _ = files.length := hperm.length_eq

/-- Witness for C8 on the one-image batch `[imgGood]`. -/
theorem C8_completed_count_invariant_witness :
    completedCount [imgGood] 0 = 0 ∧
    completedCount [imgGood] 0 ≤ completedCount [imgGood] 1 ∧
    completedCount [imgGood] 1 ≤ ([imgGood] : List SourceImage).length :=
  ⟨(C8_completed_count_invariant [imgGood] [imgGood] (List.Perm.refl _)).1,
    (C8_completed_count_invariant [imgGood] [imgGood]
      (List.Perm.refl _)).2.1 0,
    (C8_completed_count_invariant [imgGood] [imgGood]
      (List.Perm.refl _)).2.2.2 1⟩

/-- C9: Whatever order the per-item tasks complete in, the `Promise.all`
join reassembles them by submission index, so (for a batch with no decode
failure, where the code publishes results at all) the successful entries
appear in the returned list in the submission order of their sources. -/
theorem C9_submission_order (files : List SourceImage)
    (completions : List (ℕ × Option ProcessedImage)) (s : BatchState)
    (hperm : completions.Perm (submissionResults files))
    (hdec : ∀ f ∈ files, f.decoded.isSome = true)
    (hne : files ≠ []) :
    (assemble files.length completions).reduceOption =
      files.filterMap (fun f => okOpt (processItem f)) ∧
    (handleConvert files s).processedImages =
      files.filterMap (fun f => okOpt (processItem f)) := by
  constructor
  · rw [assemble_eq files completions hperm,
      show (files.map (fun f => okOpt (processItem f))).reduceOption =
        (files.map (fun f => okOpt (processItem f))).filterMap id from rfl,
      List.filterMap_map]
    rfl
  · have herr := no_error_of_decodable hdec
    have hlen0 : files.length ≠ 0 := fun h0 => hne (List.length_eq_zero.mp h0)
    unfold handleConvert
    rw [if_neg hlen0, if_neg (by simp [herr])]
    show (files.map processItem).filterMap okOpt = _
    rw [List.filterMap_map]
    rfl

/-- A completion order that finishes the second submission first. -/
def completionsRev : List (ℕ × Option ProcessedImage) :=
  [(1, okOpt (processItem imgGood2)), (0, okOpt (processItem imgGood))]

/-- Witness for C9: the two-image batch joined in reversed completion order
still lists its results in submission order. -/
theorem C9_submission_order_witness :
    completionsRev.Perm (submissionResults [imgGood, imgGood2]) ∧
    (assemble 2 completionsRev).reduceOption =
      ([imgGood, imgGood2] : List SourceImage).filterMap
        (fun f => okOpt (processItem f)) :=
  ⟨by decide,
    (C9_submission_order [imgGood, imgGood2] completionsRev state0
      (by decide) (by decide) (by decide)).1⟩

/-- C10: For 8-bit channel values the luminance index is below 256, so the
three lookups into the 256-entry tables are always in bounds and the
out-of-range case is unreachable. -/
theorem C10_lut_index_in_bounds (r g b : ℕ)
    (hr : r ≤ 255) (hg : g ≤ 255) (hb : b ≤ 255) :
    luminanceInt r g b < 256 :=
  Nat.lt_succ_of_le (luminanceInt_le r g b hr hg hb)

/-- Witness for C10 at the brightest pixel. -/
theorem C10_lut_index_in_bounds_witness :
    (255 : ℕ) ≤ 255 ∧ luminanceInt 255 255 255 < 256 :=
  ⟨by decide,
    C10_lut_index_in_bounds 255 255 255 (by decide) (by decide) (by decide)⟩

end Pinku
